import Mathlib

/-!
A verification model of tinydb's storage core.

The pager (`src/pager.rs`) is embedded as pure functions over an explicit
file model: a file is a byte function together with a length.  Machine
integers are `Nat`; wherever the source performs `u32` arithmetic the model
reduces modulo `2 ^ 32` explicitly (release-mode wrapping semantics).
Fallible operations return `Except DbError`.

The heap access method (`src/access/heap.rs`) and the engine teardown
(`src/engine/mod.rs`) depend on the buffer pool, slotted-page and free-space
modules, whose sources are not part of this tree; those parts are modelled
from the specification (each such definition says so in its doc comment).
-/

/-- Errors of the storage core.  `IncorrectPageNumber` and `CorruptedFile`
come from the pager's `Error` enum in `src/pager.rs`; `PageFull` is the
slotted-page insertion failure described by the specification (§4.2, §7). -/
inductive DbError where
  | IncorrectPageNumber
  | CorruptedFile
  | PageFull
  deriving DecidableEq, Repr

instance exceptDecEq {e a : Type} [DecidableEq e] [DecidableEq a] : DecidableEq (Except e a) :=
  fun x y =>
  match x, y with
  | .ok u, .ok v => if h : u = v then isTrue (by rw [h]) else isFalse (by simp [h])
  | .error u, .error v => if h : u = v then isTrue (by rw [h]) else isFalse (by simp [h])
  | .ok _, .error _ => isFalse (by simp)
  | .error _, .ok _ => isFalse (by simp)

/-- `HEADER_SIZE` from `src/pager.rs`: the tinydb file header occupies 100 bytes. -/
def HEADER_SIZE : Nat := 100

/-- `PAGE_SIZE` from `src/pager.rs`: `4096 * 4` bytes. -/
def PAGE_SIZE : Nat := 4096 * 4

/-- `MAGIC_BYTES` from `src/pager.rs`: the ASCII codes of `"Tinydb"`. -/
def MAGIC_BYTES : List Nat := [84, 105, 110, 121, 100, 98]

/-- The modulus of `u32` arithmetic. -/
def U32 : Nat := 2 ^ 32

/-- A file, modelled as its length and its byte content.  Positions `≥ len`
are not part of the file; reads there yield nothing (see `readBytes`). -/
structure FileM where
  len : Nat
  byte : Nat → Nat

/-- One `File::read` of `n` bytes at offset `off` into a zero-initialised
buffer: a (possibly short) read fills the first `min n (len - off)` bytes and
leaves the rest of the buffer zero, exactly as `read` on a regular file
positioned at `off` behaves. -/
def readBytes (f : FileM) (off n : Nat) : Nat → Nat :=
  fun i => if i < n ∧ off + i < f.len then f.byte (off + i) else 0

/-- One `File::write` of `n` bytes at offset `off`: the file grows to cover
the written range, bytes in the range come from the buffer `d`, bytes the
write skipped over (a seek past the end produces a sparse hole) read as 0. -/
def writeBytes (f : FileM) (off n : Nat) (d : Nat → Nat) : FileM :=
  ⟨max f.len (off + n),
   fun j => if off ≤ j ∧ j < off + n then d (j - off)
            else if j < f.len then f.byte j else 0⟩

/-- The in-memory file header (`Header` in `src/pager.rs`): its only field is
the 6-byte magic tag. -/
structure Header where
  magic : Fin 6 → Nat

/-- `Header::default`: magic = `"Tinydb"`. -/
def Header.default : Header := ⟨fun i => MAGIC_BYTES.getD i.val 0⟩

/-- `Header::serialize`: bincode writes the six magic bytes and the result is
zero-padded to `HEADER_SIZE` bytes.  (For this fixed-size struct bincode
serialization cannot fail.) -/
def Header.serialize (h : Header) : Nat → Nat :=
  fun i => if hi : i < 6 then h.magic ⟨i, hi⟩ else 0

/-- `Header::deserialize`: bincode reads the first six bytes of the buffer as
the magic array; trailing bytes are ignored, so with a 100-byte buffer this
cannot fail. -/
def Header.deserialize (d : Nat → Nat) : Header := ⟨fun i => d i.val⟩

/-- `MemPage` from `src/pager.rs`: an in-memory copy of one page. -/
structure MemPage where
  number : Nat
  data : Nat → Nat

/-- `Pager` from `src/pager.rs`: the backing file plus the page counter. -/
structure Pager where
  file : FileM
  total_pages : Nat

/-- `Pager::offset`: the source computes
`(HEADER_SIZE as u32 + page - 1) as u64 * PAGE_SIZE as u64`.
For `page < 2^32` the wrapping `u32` value `HEADER_SIZE + page - 1` equals
`(99 + page) % 2^32` (the inner `+ 100` never underflows the `- 1`), and the
`u64` product with `PAGE_SIZE` does not overflow. -/
def Pager.offset (_p : Pager) (page : Nat) : Nat :=
  ((99 + page) % U32) * PAGE_SIZE

/-- `Pager::validate_page`: a page number is rejected iff it is `0` or
exceeds `total_pages`. -/
def Pager.validate_page (p : Pager) (page : Nat) : Except DbError Unit :=
  if page > p.total_pages ∨ page = 0 then .error .IncorrectPageNumber else .ok ()

/-- `Pager::read_page`: validate, seek to `offset page`, read `PAGE_SIZE`
bytes into a zeroed buffer. -/
def Pager.read_page (p : Pager) (page : Nat) : Except DbError MemPage :=
  match p.validate_page page with
  | .error e => .error e
  | .ok _ => .ok ⟨page, readBytes p.file (p.offset page) PAGE_SIZE⟩

/-- `Pager::write_page`: validate, seek to `offset page`, write the
`PAGE_SIZE` bytes of the in-memory page. -/
def Pager.write_page (p : Pager) (m : MemPage) : Except DbError Pager :=
  match p.validate_page m.number with
  | .error e => .error e
  | .ok _ => .ok ⟨writeBytes p.file (p.offset m.number) PAGE_SIZE m.data, p.total_pages⟩

/-- `Pager::allocate_page`: increment the `u32` page counter and return it. -/
def Pager.allocate_page (p : Pager) : Nat × Pager :=
  ((p.total_pages + 1) % U32, ⟨p.file, (p.total_pages + 1) % U32⟩)

/-- `Pager::read_header`: read the first `HEADER_SIZE` bytes (zero padded on
a short read) and deserialize them. -/
def Pager.read_header (p : Pager) : Header :=
  Header.deserialize (readBytes p.file 0 HEADER_SIZE)

/-- `Pager::write_header`: write the serialized 100-byte header at offset 0. -/
def Pager.write_header (p : Pager) (h : Header) : Pager :=
  ⟨writeBytes p.file 0 HEADER_SIZE h.serialize, p.total_pages⟩

/-- `Pager::size`: the source returns 0 when `len == 0` or
`len as usize - HEADER_SIZE == 0` (the wrapping difference is zero exactly
when `len = HEADER_SIZE`), and otherwise computes
`len as u32 / PAGE_SIZE as u32 - HEADER_SIZE as u32`: a `u32` truncation of
`len`, a division by `PAGE_SIZE`, and a wrapping subtraction of
`HEADER_SIZE` (release-mode semantics). -/
def Pager.size (p : Pager) : Except DbError Nat :=
  if p.file.len = 0 ∨ p.file.len = HEADER_SIZE then .ok 0
  else .ok ((p.file.len % U32 / PAGE_SIZE + (U32 - HEADER_SIZE)) % U32)

/-- `Pager::is_empty`: the file has length zero. -/
def Pager.is_empty (p : Pager) : Bool := p.file.len == 0

/-- `Pager::validate_header`: read the header and fail with `CorruptedFile`
unless its magic equals `MAGIC_BYTES`. -/
def Pager.validate_header (p : Pager) : Except DbError Unit :=
  if p.read_header.magic = Header.default.magic then .ok () else .error .CorruptedFile

/-- `Pager::initialize_header`: write the default header. -/
def Pager.initialize_header (p : Pager) : Pager := p.write_header Header.default

/-- `Pager::open` (named `openPager` because `open` is reserved in Lean):
compute `total_pages` via `size`, then either initialize the header (empty
file, which is also the state of a freshly created file) or validate it.
Opening a path with no file creates an empty file, so the absent-file case
coincides with the empty-file case of this model. -/
def Pager.openPager (f : FileM) : Except DbError Pager :=
  match Pager.size ⟨f, 0⟩ with
  | .error e => .error e
  | .ok s =>
    if Pager.is_empty ⟨f, s⟩ then .ok (Pager.initialize_header ⟨f, s⟩)
    else match Pager.validate_header ⟨f, s⟩ with
      | .error e => .error e
      | .ok _ => .ok ⟨f, s⟩

/-- The empty file: what `Pager::open` sees for a path that did not exist. -/
def emptyFile : FileM := ⟨0, fun _ => 0⟩

/-- The pager produced by opening the empty file. -/
def p0empty : Pager := Pager.initialize_header ⟨emptyFile, 0⟩

/-- Iterated `allocate_page` (discarding the returned numbers). -/
def allocN (p : Pager) : Nat → Pager
  | 0 => p
  | k + 1 => ((allocN p k).allocate_page).2

/-- The offset formula exactly as the specification states it:
`HEADER_SIZE + (n-1)·PAGE_SIZE`.  Stated only to be compared with the
source's `Pager.offset`. -/
def specOffset (n : Nat) : Nat := HEADER_SIZE + (n - 1) * PAGE_SIZE

/-- Little-endian decoding of a `u16` stored at byte offset `o` (the page
format prescribed by the specification §6; stored bytes are `u8`, whence the
`% 256`). -/
def le16 (b : Nat → Nat) (o : Nat) : Nat := b o % 256 + 256 * (b (o + 1) % 256)

/-- Little-endian encoding of a `u16` value `x` at byte offset `o`. -/
def write16 (b : Nat → Nat) (o x : Nat) : Nat → Nat :=
  fun j => if j = o then x % 256 else if j = o + 1 then x / 256 % 256 else b j

/-- Copy the byte list `p` into the buffer starting at offset `o`. -/
def writeRange (b : Nat → Nat) (o : Nat) (p : List Nat) : Nat → Nat :=
  fun j => if o ≤ j ∧ j < o + p.length then p.getD (j - o) 0 else b j

/-- The `l` bytes of the buffer starting at offset `o`, as a list. -/
def sliceBytes (b : Nat → Nat) (o l : Nat) : List Nat :=
  (List.range l).map (fun i => b (o + i))

/-- `PAGE_HEADER_SIZE`: three `u16` fields (`start_free_space`,
`end_free_space`, `page_size`), per specification §6. -/
def PAGE_HEADER_SIZE : Nat := 6

/-- `ITEM_ID_SIZE`: an item id is two `u16` fields (`offset`, `length`). -/
def ITEM_ID_SIZE : Nat := 4

/-- The `start_free_space` field of a page's header (bytes 0..2, LE). -/
def startFree (b : Nat → Nat) : Nat := le16 b 0

/-- The `end_free_space` field of a page's header (bytes 2..4, LE). -/
def endFree (b : Nat → Nat) : Nat := le16 b 2

/-- The number of item ids in the page's directory: the directory occupies
bytes `PAGE_HEADER_SIZE ..< start_free_space` and `as_chunks` splits it into
`ITEM_ID_SIZE`-byte chunks, dropping any remainder. -/
def itemCount (b : Nat → Nat) : Nat := (startFree b - PAGE_HEADER_SIZE) / ITEM_ID_SIZE

/-- The `j`-th item id `(offset, length)`, bincode-decoded (two LE `u16`s)
from the directory, as `heap_iter` in `src/access/heap.rs` does. -/
def itemId (b : Nat → Nat) (j : Nat) : Nat × Nat :=
  (le16 b (PAGE_HEADER_SIZE + ITEM_ID_SIZE * j),
   le16 b (PAGE_HEADER_SIZE + ITEM_ID_SIZE * j + 2))

/-- The tuple payloads of a slotted page in slot order: for each item id in
directory order, the byte slice `page[offset ..< offset + length]`.  This is
exactly the sequence of slices `heap_iter` passes to its callback for one
page. -/
def pageItems (b : Nat → Nat) : List (List Nat) :=
  (List.range (itemCount b)).map (fun j => sliceBytes b (itemId b j).1 (itemId b j).2)

/-- Modelled from the spec: `page_init` (§4.2, source `storage/bufpage.rs` is
not in the tree) writes a fresh header with `start_free_space =
PAGE_HEADER_SIZE = 6` and `end_free_space = page_size = PAGE_SIZE = 16384 =
0x4000`, little-endian, all other bytes zero. -/
def pageInit : Nat → Nat :=
  fun j => if j = 0 then 6 else if j = 3 then 64 else if j = 5 then 64 else 0

/-- Modelled from the spec: `page_add_item` (§4.2, source
`storage/bufpage.rs` is not in the tree).  A zero-length payload is
rejected; if `ITEM_ID_SIZE + payload.len > end_free_space - start_free_space`
the result is `PageFull`; otherwise the payload is copied to the new
`end_free_space`, a new item id `(offset = end_free_space, length)` is
written at `start_free_space`, and the header fields are updated. -/
def page_add_item (b : Nat → Nat) (p : List Nat) : Except DbError (Nat → Nat) :=
  if p.length = 0 then .error .PageFull
  else if endFree b - startFree b < ITEM_ID_SIZE + p.length then .error .PageFull
  else .ok (write16 (write16
      (write16 (write16 (writeRange b (endFree b - p.length) p)
        (startFree b) (endFree b - p.length))
        (startFree b + 2) p.length)
      0 (startFree b + 4)) 2 (endFree b - p.length))

/-- Modelled from the spec: one frame of the buffer pool (§4.3, source
`storage/mod.rs` is not in the tree): identity `(relation oid, page number)`,
page bytes, pin count and dirty bit. -/
structure Frame where
  relOid : Nat
  pageNum : Nat
  data : Nat → Nat
  pinCount : Nat
  dirty : Bool

/-- Modelled from the spec: the buffer pool (§4.3): resident frames plus the
backing store, indexed by relation oid and page number.  Claims exercised
here never hit the capacity/eviction path, so the pool is unbounded. -/
structure BufferPool where
  frames : List Frame
  disk : Nat → Nat → Nat → Nat

/-- The resident frame for `(r, n)`, if any. -/
def findFrame (frames : List Frame) (r n : Nat) : Option Frame :=
  frames.find? (fun fr => fr.relOid == r && fr.pageNum == n)

/-- Apply `g` to the frame keyed `(r, n)`. -/
def mapFrame (frames : List Frame) (r n : Nat) (g : Frame → Frame) : List Frame :=
  frames.map (fun fr => if fr.relOid == r && fr.pageNum == n then g fr else fr)

/-- Modelled from the spec: `fetch_buffer` (§4.3): if `(r, n)` is resident,
increment its pin count; otherwise load the page from the backing store into
a new frame with pin count 1 and dirty = false.  The returned handle is the
page identity. -/
def fetch_buffer (pool : BufferPool) (r n : Nat) : BufferPool × (Nat × Nat) :=
  match findFrame pool.frames r n with
  | some _ => (⟨mapFrame pool.frames r n (fun fr => { fr with pinCount := fr.pinCount + 1 }),
               pool.disk⟩, (r, n))
  | none => (⟨pool.frames ++ [⟨r, n, pool.disk r n, 1, false⟩], pool.disk⟩, (r, n))

/-- Modelled from the spec: `get_page` (§4.3): borrow the bytes of the
handle's frame. -/
def get_page (pool : BufferPool) (h : Nat × Nat) : Nat → Nat :=
  match findFrame pool.frames h.1 h.2 with
  | some fr => fr.data
  | none => fun _ => 0

/-- The write-back of a mutation done through a borrowed page (the source
mutates the shared `RefCell` page in place). -/
def set_page (pool : BufferPool) (h : Nat × Nat) (b : Nat → Nat) : BufferPool :=
  ⟨mapFrame pool.frames h.1 h.2 (fun fr => { fr with data := b }), pool.disk⟩

/-- Modelled from the spec: `unpin_buffer` (§4.3): decrement the pin count
and OR `made_dirty` into the dirty bit. -/
def unpin_buffer (pool : BufferPool) (h : Nat × Nat) (made_dirty : Bool) : BufferPool :=
  ⟨mapFrame pool.frames h.1 h.2
     (fun fr => { fr with pinCount := fr.pinCount - 1, dirty := fr.dirty || made_dirty }),
   pool.disk⟩

/-- Modelled from the spec: `get_page_with_free_space` (§4.5, §9; source
`storage/freespace.rs` is not in the tree): the source's policy inspects
only page 1 of the relation, so it is a fetch of page 1. -/
def get_page_with_free_space (pool : BufferPool) (r : Nat) : BufferPool × (Nat × Nat) :=
  fetch_buffer pool r 1

/-- `heap_insert` from `src/access/heap.rs`: acquire a page via the
free-space policy, `page_add_item` the payload, unpin the buffer dirty.  On
a `page_add_item` failure the `?` operator returns early: no unpin happens.
The relation is represented by its oid. -/
def heap_insert (pool : BufferPool) (r : Nat) (tuple : List Nat) :
    BufferPool × Except DbError Unit :=
  let fetched := get_page_with_free_space pool r
  match page_add_item (get_page fetched.1 fetched.2) tuple with
  | .error e => (fetched.1, .error e)
  | .ok page' => (unpin_buffer (set_page fetched.1 fetched.2 page') fetched.2 true, .ok ())

/-- `heap_iter` from `src/access/heap.rs`, with its callback trace made
explicit: the source fetches page 1 of the relation only, decodes the item
directory, invokes the callback once per item id in slot order with the
payload slice, and unpins the buffer clean.  The returned list is the
sequence of byte slices passed to the callback; `heap_scan` pushes each one
into its result vector, so it returns exactly this list. -/
def heap_iter_visits (pool : BufferPool) (r : Nat) :
    BufferPool × Except DbError (List (List Nat)) :=
  let fetched := fetch_buffer pool r 1
  let ts := pageItems (get_page fetched.1 fetched.2)
  (unpin_buffer fetched.1 fetched.2 false, .ok ts)

/-- `heap_scan` from `src/access/heap.rs`: collect the tuples `heap_iter`
visits. -/
def heap_scan (pool : BufferPool) (r : Nat) :
    BufferPool × Except DbError (List (List Nat)) :=
  heap_iter_visits pool r

/-- Fold successive `heap_insert` calls, stopping at the first failure (as a
caller propagating each `Result` would). -/
def insertAll (pool : BufferPool) (r : Nat) : List (List Nat) → BufferPool × Except DbError Unit
  | [] => (pool, .ok ())
  | p :: ps =>
    match heap_insert pool r p with
    | (pool', .ok _) => insertAll pool' r ps
    | (pool', .error e) => (pool', .error e)

/-- A single-relation pool: relation oid 1 with its page 1 resident,
unpinned, with the given bytes and dirty bit; empty backing store. -/
def poolD (b : Nat → Nat) (dr : Bool) : BufferPool :=
  ⟨[⟨1, 1, b, 0, dr⟩], fun _ _ _ => 0⟩

/-- The pool right after `heap_create` provisioned relation 1: page 1 is an
initialized empty slotted page (dirty, not yet flushed). -/
def initPool : BufferPool := poolD pageInit true

/-- The page obtained by adding one tuple to a fresh page (total function
for concrete use; `page_add_item` on these inputs succeeds). -/
def pageWith (t : List Nat) : Nat → Nat :=
  match page_add_item pageInit t with
  | .ok b => b
  | .error _ => pageInit

/-- A pool where relation 1 has two resident data pages, each holding one
tuple: the failing input for the multi-page-scan claim. -/
def twoPagePool : BufferPool :=
  ⟨[⟨1, 1, pageWith [7], 0, false⟩, ⟨1, 2, pageWith [9], 0, false⟩], fun _ _ _ => 0⟩

/-- A payload too large for any slotted page (16380 + ITEM_ID_SIZE exceeds
the 16378 free bytes of an empty page). -/
def bigTuple : List Nat := List.replicate 16380 1

/-- Modelled from the spec: `flush_all_buffers` (§4.3, source
`storage/mod.rs` is not in the tree): write every dirty frame back to the
backing store and clear all dirty bits. -/
def flushFrame (d : Nat → Nat → Nat → Nat) (fr : Frame) : Nat → Nat → Nat → Nat :=
  if fr.dirty then
    fun o p => if o = fr.relOid ∧ p = fr.pageNum then fr.data else d o p
  else d

/-- Modelled from the spec: `flush_all_buffers` over the whole pool. -/
def flush_all_buffers (pool : BufferPool) : Except DbError BufferPool :=
  .ok ⟨pool.frames.map (fun fr => { fr with dirty := false }),
       pool.frames.foldl flushFrame pool.disk⟩

/-- `Drop for Engine` from `src/engine/mod.rs`: teardown calls
`flush_all_buffers` and `.expect(..)`s the result, so a flush failure
becomes a panic that surfaces at shutdown instead of being swallowed; a
success yields the flushed pool, after which the pagers close. -/
def engineDrop (pool : BufferPool) : Except DbError BufferPool :=
  match flush_all_buffers pool with
  | .ok p => .ok p
  | .error e => .error e

/-- A one-page file whose byte at offset `HEADER_SIZE` (where the
specification's offset formula places page 1) is 7 and whose other bytes,
in particular everything at the source's page-1 offset, are 0. -/
def fileC1 : FileM := ⟨101 * PAGE_SIZE, fun j => if j = 100 then 7 else 0⟩

/-- A pager over `fileC1` with one page. -/
def pagerC1 : Pager := ⟨fileC1, 1⟩

/-- A file of length `101 * PAGE_SIZE`: one data page under the source's own
layout. -/
def fileC2 : FileM := ⟨101 * PAGE_SIZE, fun _ => 0⟩

/-- A file whose first 100 bytes are all zero (scenario S3). -/
def zero100File : FileM := ⟨100, fun _ => 0⟩

/-- The pager opened over the empty file after one `allocate_page`: page 1
is allocated but nothing was ever written to it. -/
def pagerFresh : Pager := (Pager.allocate_page p0empty).2

/-- The slotted-page invariants of specification §3: the free-space bounds
are ordered and in range, the item directory is `ITEM_ID_SIZE`-aligned, and
every item's payload lies between `end_free_space` and the page end. -/
structure PageInv (b : Nat → Nat) : Prop where
  sLo : 6 ≤ startFree b
  sLe : startFree b ≤ endFree b
  eLe : endFree b ≤ 16384
  sAligned : (startFree b - 6) % 4 = 0
  items : ∀ j, j < itemCount b →
    endFree b ≤ (itemId b j).1 ∧ (itemId b j).1 + (itemId b j).2 ≤ 16384

theorem Pager.offset_small (p : Pager) (page : Nat) (h : 99 + page < U32) :
    p.offset page = (99 + page) * PAGE_SIZE := by
  rw [Pager.offset, Nat.mod_eq_of_lt h]

theorem Pager.validate_page_ok_of (p : Pager) (n : Nat) (h1 : n ≠ 0)
    (h2 : n ≤ p.total_pages) : p.validate_page n = .ok () := by
  rw [Pager.validate_page, if_neg]
  omega

theorem Pager.read_page_ok (p : Pager) (n : Nat) (h1 : n ≠ 0) (h2 : n ≤ p.total_pages) :
    p.read_page n = .ok ⟨n, readBytes p.file (p.offset n) PAGE_SIZE⟩ := by
  rw [Pager.read_page, Pager.validate_page_ok_of p n h1 h2]

theorem Pager.write_page_ok (p : Pager) (m : MemPage) (h1 : m.number ≠ 0)
    (h2 : m.number ≤ p.total_pages) :
    p.write_page m = .ok ⟨writeBytes p.file (p.offset m.number) PAGE_SIZE m.data,
      p.total_pages⟩ := by
  rw [Pager.write_page, Pager.validate_page_ok_of p m.number h1 h2]

/-- Claim C1, counterexample: on the one-page pager `pagerC1`, `read_page 1`
does not return the bytes at the specification's offset
`HEADER_SIZE + (1-1)·PAGE_SIZE = 100` (where the file holds 7): the source
seeks to `(HEADER_SIZE + 1 - 1)·PAGE_SIZE` instead, where the file holds 0. -/
theorem pager_offset_counterexample :
    ¬ (∀ i, i < PAGE_SIZE →
        (pagerC1.read_page 1).map (fun m => m.data i) = .ok (fileC1.byte (specOffset 1 + i))) := by
  intro h
  exact absurd (h 0 (by decide)) (by decide)

/-- Claim C1 (amended): for every valid page number `n`, `read_page n` fills
the returned `MemPage` with the `PAGE_SIZE` bytes of the file at offset
`(HEADER_SIZE + n - 1)·PAGE_SIZE` (zero where the file ends early), and
`write_page n d` writes `d` at that same offset, leaving bytes outside that
range unchanged. -/
theorem read_write_page_offset (p : Pager) (n : Nat) (d : Nat → Nat)
    (h1 : 1 ≤ n) (h2 : n ≤ p.total_pages) (h3 : 99 + n < U32) :
    (∃ m, p.read_page n = .ok m ∧ m.number = n ∧
      ∀ i, i < PAGE_SIZE →
        m.data i = if (99 + n) * PAGE_SIZE + i < p.file.len
                   then p.file.byte ((99 + n) * PAGE_SIZE + i) else 0) ∧
    (∃ q, p.write_page ⟨n, d⟩ = .ok q ∧ q.total_pages = p.total_pages ∧
      q.file.len = max p.file.len ((99 + n) * PAGE_SIZE + PAGE_SIZE) ∧
      (∀ i, i < PAGE_SIZE → q.file.byte ((99 + n) * PAGE_SIZE + i) = d i) ∧
      (∀ j, j < (99 + n) * PAGE_SIZE → j < p.file.len → q.file.byte j = p.file.byte j)) := by
  constructor
  · refine ⟨_, p.read_page_ok n (by omega) h2, rfl, ?_⟩
    intro i hi
    simp only [readBytes, p.offset_small n h3]
    simp [hi]
  · refine ⟨_, p.write_page_ok ⟨n, d⟩ (by simpa using Nat.one_le_iff_ne_zero.mp h1) h2,
      rfl, ?_, ?_, ?_⟩
    · simp [writeBytes, p.offset_small n h3]
    · intro i hi
      simp only [writeBytes, p.offset_small n h3]
      rw [if_pos (by omega)]
      simp
    · intro j hj hjlen
      simp only [writeBytes, p.offset_small n h3]
      rw [if_neg (by omega), if_pos hjlen]

/-- Claim C1, witness: the amended statement at the concrete one-page pager. -/
theorem read_write_page_offset_witness :
    (∃ m, pagerC1.read_page 1 = .ok m ∧ m.number = 1 ∧
      ∀ i, i < PAGE_SIZE →
        m.data i = if (99 + 1) * PAGE_SIZE + i < pagerC1.file.len
                   then pagerC1.file.byte ((99 + 1) * PAGE_SIZE + i) else 0) ∧
    (∃ q, pagerC1.write_page ⟨1, fun _ => 5⟩ = .ok q ∧ q.total_pages = pagerC1.total_pages ∧
      q.file.len = max pagerC1.file.len ((99 + 1) * PAGE_SIZE + PAGE_SIZE) ∧
      (∀ i, i < PAGE_SIZE → q.file.byte ((99 + 1) * PAGE_SIZE + i) = (fun _ => (5 : Nat)) i) ∧
      (∀ j, j < (99 + 1) * PAGE_SIZE → j < pagerC1.file.len →
        q.file.byte j = pagerC1.file.byte j)) :=
  read_write_page_offset pagerC1 1 (fun _ => 5) (by decide) (by decide) (by decide)

/-- Claim C2, counterexample: a file of length `101·PAGE_SIZE` (one data page
under the source's own layout).  `size()` returns 1, while the claimed
formula `(len - HEADER_SIZE) / PAGE_SIZE` gives 100. -/
theorem pager_size_counterexample :
    Pager.size ⟨fileC2, 0⟩ = .ok 1 ∧
    (fileC2.len - HEADER_SIZE) / PAGE_SIZE = 100 ∧ (1 : Nat) ≠ 100 :=
  ⟨by decide, by decide, by decide⟩

/-- Claim C2 (amended): `size()` returns 0 for an empty file and for a file
of exactly `HEADER_SIZE` bytes, and for a file of length
`(HEADER_SIZE + k)·PAGE_SIZE` — the length the source's own `write_page`
produces after writing page `k` — it returns `k`, computed as the wrapping
`u32` expression `len / PAGE_SIZE - HEADER_SIZE`, not as
`(len - HEADER_SIZE) / PAGE_SIZE`. -/
theorem pager_size_formula (bts : Nat → Nat) (k : Nat) (h1 : 1 ≤ k) (h2 : 100 + k < 262144) :
    Pager.size ⟨⟨(HEADER_SIZE + k) * PAGE_SIZE, bts⟩, 0⟩ = .ok k ∧
    Pager.size ⟨⟨0, bts⟩, 0⟩ = .ok 0 ∧
    Pager.size ⟨⟨HEADER_SIZE, bts⟩, 0⟩ = .ok 0 := by
  refine ⟨?_, by simp [Pager.size], by simp [Pager.size]⟩
  rw [Pager.size]
  simp only [HEADER_SIZE, PAGE_SIZE, U32] at *
  rw [if_neg (by omega)]
  have hlt : (100 + k) * 16384 < 2 ^ 32 := by omega
  rw [Nat.mod_eq_of_lt hlt, Nat.mul_div_cancel _ (by norm_num)]
  have : 100 + k + (2 ^ 32 - 100) = 2 ^ 32 + k := by omega
  rw [this, Nat.add_mod_left, Nat.mod_eq_of_lt (by omega)]

/-- Claim C2, witness: the amended statement at `k = 1`. -/
theorem pager_size_formula_witness :
    Pager.size ⟨⟨(HEADER_SIZE + 1) * PAGE_SIZE, fun _ => 0⟩, 0⟩ = .ok 1 ∧
    Pager.size ⟨⟨0, fun _ => 0⟩, 0⟩ = .ok 0 ∧
    Pager.size ⟨⟨HEADER_SIZE, fun _ => 0⟩, 0⟩ = .ok 0 :=
  pager_size_formula (fun _ => 0) 1 (by decide) (by decide)

/-- Claim C4: `Pager::open` on an empty file (the state of a freshly created
file) writes the default 100-byte header — magic `"Tinydb"` in bytes 0..6,
zeros in bytes 6..100 — while on a non-empty file whose first six bytes
differ from the magic it fails with `CorruptedFile`. -/
theorem openPager_header_cases (f : FileM) :
    (f.len = 0 → Pager.openPager f = .ok (Pager.initialize_header ⟨f, 0⟩) ∧
      (Pager.initialize_header ⟨f, 0⟩).total_pages = 0 ∧
      (Pager.initialize_header ⟨f, 0⟩).file.len = HEADER_SIZE ∧
      (∀ i, i < 6 → (Pager.initialize_header ⟨f, 0⟩).file.byte i = MAGIC_BYTES.getD i 0) ∧
      (∀ i, 6 ≤ i → i < HEADER_SIZE → (Pager.initialize_header ⟨f, 0⟩).file.byte i = 0)) ∧
    (f.len ≠ 0 → (∃ j, j < 6 ∧ f.byte j ≠ MAGIC_BYTES.getD j 0) →
      Pager.openPager f = .error .CorruptedFile) := by
  constructor
  · intro hf
    have hs : Pager.size ⟨f, 0⟩ = .ok 0 := by
      rw [Pager.size, if_pos (Or.inl hf)]
    refine ⟨?_, rfl, ?_, ?_, ?_⟩
    · simp only [Pager.openPager, hs]
      rw [if_pos]
      simp [Pager.is_empty, hf]
    · simp [Pager.initialize_header, Pager.write_header, writeBytes, hf, HEADER_SIZE]
    · intro i hi
      simp only [Pager.initialize_header, Pager.write_header, writeBytes, Header.serialize,
        Header.default, HEADER_SIZE]
      rw [if_pos (by omega), dif_pos (by omega)]
      simp
    · intro i h6 h100
      simp only [Pager.initialize_header, Pager.write_header, writeBytes, Header.serialize,
        Header.default, HEADER_SIZE] at *
      rw [if_pos (by omega), dif_neg (by omega)]
  · intro hne hbad
    obtain ⟨j, hj6, hjm⟩ := hbad
    obtain ⟨s, hs⟩ : ∃ s, Pager.size ⟨f, 0⟩ = .ok s := by
      rw [Pager.size]
      split <;> exact ⟨_, rfl⟩
    have hv : Pager.validate_header ⟨f, s⟩ = .error .CorruptedFile := by
      rw [Pager.validate_header, if_neg]
      intro heq
      have hj : (if j < 100 ∧ 0 + j < f.len then f.byte (0 + j) else 0) =
          MAGIC_BYTES.getD j 0 := congrFun heq ⟨j, hj6⟩
      by_cases hlen : 0 + j < f.len
      · rw [if_pos ⟨by omega, hlen⟩] at hj
        exact hjm (by simpa using hj)
      · rw [if_neg (by omega)] at hj
        have : MAGIC_BYTES.getD j 0 ≠ 0 := by interval_cases j <;> decide
        exact this (by simpa using hj.symm)
    simp only [Pager.openPager, hs]
    rw [if_neg]
    · simp only [hv]
    · simp [Pager.is_empty, hne]

/-- Claim C4, witness: the empty file gets the default header written; the
all-zero 100-byte file of scenario S3 is rejected as corrupted. -/
theorem openPager_header_cases_witness :
    (Pager.openPager emptyFile = .ok (Pager.initialize_header ⟨emptyFile, 0⟩) ∧
      (Pager.initialize_header ⟨emptyFile, 0⟩).total_pages = 0 ∧
      (Pager.initialize_header ⟨emptyFile, 0⟩).file.len = HEADER_SIZE ∧
      (∀ i, i < 6 →
        (Pager.initialize_header ⟨emptyFile, 0⟩).file.byte i = MAGIC_BYTES.getD i 0) ∧
      (∀ i, 6 ≤ i → i < HEADER_SIZE →
        (Pager.initialize_header ⟨emptyFile, 0⟩).file.byte i = 0)) ∧
    Pager.openPager zero100File = .error .CorruptedFile :=
  ⟨(openPager_header_cases emptyFile).1 rfl,
   (openPager_header_cases zero100File).2 (by decide) ⟨0, by decide, by decide⟩⟩

/-- Claim C5: `read_page n` and `write_page n _` fail with
`IncorrectPageNumber` exactly when `n = 0` or `n > total_pages`; a valid `n`
(including the inclusive upper bound `n = total_pages`) succeeds; and on a
pager freshly opened over the empty file, `read_page 1` fails with
`IncorrectPageNumber`. -/
theorem validate_page_bounds (p : Pager) (n : Nat) (d : Nat → Nat) :
    ((p.read_page n = .error .IncorrectPageNumber) ↔ (n = 0 ∨ n > p.total_pages)) ∧
    ((p.write_page ⟨n, d⟩ = .error .IncorrectPageNumber) ↔ (n = 0 ∨ n > p.total_pages)) ∧
    (1 ≤ n → n ≤ p.total_pages →
      (∃ m, p.read_page n = .ok m) ∧ (∃ q, p.write_page ⟨n, d⟩ = .ok q)) ∧
    Except.bind (Pager.openPager emptyFile) (fun q => q.read_page 1) =
      .error .IncorrectPageNumber := by
  by_cases hc : n > p.total_pages ∨ n = 0
  · have hv : p.validate_page n = .error .IncorrectPageNumber := by
      rw [Pager.validate_page, if_pos hc]
    refine ⟨?_, ?_, ?_, rfl⟩
    · simp only [Pager.read_page, hv]
      simp
      omega
    · simp only [Pager.write_page, hv]
      simp
      omega
    · intro ha hb
      exact absurd hc (by omega)
  · have hv : p.validate_page n = .ok () := by
      rw [Pager.validate_page, if_neg hc]
    refine ⟨?_, ?_, ?_, rfl⟩
    · simp only [Pager.read_page, hv]
      simp
      omega
    · simp only [Pager.write_page, hv]
      simp
      omega
    · intro ha hb
      exact ⟨⟨_, p.read_page_ok n (by omega) hb⟩,
        ⟨_, p.write_page_ok ⟨n, d⟩ (show n ≠ 0 by omega) hb⟩⟩

/-- Claim C5, witness: the success half at the one-page pager with
`n = total_pages = 1`. -/
theorem validate_page_bounds_witness :
    (∃ m, pagerC1.read_page 1 = .ok m) ∧
    (∃ q, pagerC1.write_page ⟨1, fun _ => 0⟩ = .ok q) :=
  (validate_page_bounds pagerC1 1 (fun _ => 0)).2.2.1 (by decide) (by decide)

/-- Claim C10: reading a page that was allocated but never written — so the
file ends at or before the page's offset — succeeds and returns an all-zero
`MemPage`: the buffer is pre-zeroed and the short read leaves it zero. -/
theorem read_unwritten_page_zero (p : Pager) (n : Nat)
    (h1 : 1 ≤ n) (h2 : n ≤ p.total_pages) (h3 : 99 + n < U32)
    (h4 : p.file.len ≤ (99 + n) * PAGE_SIZE) :
    ∃ m, p.read_page n = .ok m ∧ m.number = n ∧ ∀ i, m.data i = 0 := by
  refine ⟨_, p.read_page_ok n (by omega) h2, rfl, ?_⟩
  intro i
  simp only [readBytes, p.offset_small n h3]
  rw [if_neg]
  rintro ⟨hi, hlen⟩
  omega

/-- Claim C10, witness: open the empty file, allocate page 1, read it back
without ever writing it. -/
theorem read_unwritten_page_zero_witness :
    ∃ m, pagerFresh.read_page 1 = .ok m ∧ m.number = 1 ∧ ∀ i, m.data i = 0 :=
  read_unwritten_page_zero pagerFresh 1 (by decide) (by decide) (by decide) (by decide)

theorem allocN_file (p : Pager) (k : Nat) : (allocN p k).file = p.file := by
  induction k with
  | zero => rfl
  | succ k ih => simpa [allocN, Pager.allocate_page] using ih

theorem allocN_total (p : Pager) (hp : p.total_pages = 0) (k : Nat) (hk : k < U32) :
    (allocN p k).total_pages = k := by
  induction k with
  | zero => simpa [allocN]
  | succ k ih =>
    have ihk := ih (by omega)
    simp only [allocN, Pager.allocate_page, ihk]
    exact Nat.mod_eq_of_lt hk

theorem p0empty_file_len : p0empty.file.len = 100 := by
  simp [p0empty, Pager.initialize_header, Pager.write_header, writeBytes, emptyFile, HEADER_SIZE]

theorem p0empty_byte_lt6 (j : Nat) (hj : j < 6) : p0empty.file.byte j = MAGIC_BYTES.getD j 0 := by
  simp only [p0empty, Pager.initialize_header, Pager.write_header, writeBytes, emptyFile,
    HEADER_SIZE, Header.serialize]
  rw [if_pos (by omega), dif_pos (by omega)]
  simp [Header.default]

/-- Claim C3: opening a pager over the empty file then calling
`allocate_page` yields page number 1, and for any page `n` among `k`
allocated pages, writing data `d` to page `n` and reading it back returns a
`MemPage` equal to `d`, while `read_header` still returns the default header
with magic `"Tinydb"`: page writes never touch the header bytes. -/
theorem pager_round_trip (d : Nat → Nat) (n k : Nat)
    (h1 : 1 ≤ n) (h2 : n ≤ k) (h3 : 99 + k < U32) :
    Pager.openPager emptyFile = .ok p0empty ∧
    (p0empty.allocate_page).1 = 1 ∧
    (allocN p0empty k).total_pages = k ∧
    ∃ p2 m, (allocN p0empty k).write_page ⟨n, d⟩ = .ok p2 ∧
      p2.read_page n = .ok m ∧ m.number = n ∧
      (∀ i, i < PAGE_SIZE → m.data i = d i) ∧
      p2.read_header = Header.default := by
  have htot : (allocN p0empty k).total_pages = k := allocN_total p0empty rfl k (by omega)
  refine ⟨rfl, by decide, htot, ?_⟩
  have hofs : ∀ q : Pager, q.offset n = (99 + n) * PAGE_SIZE :=
    fun q => q.offset_small n (by omega)
  have hw : (allocN p0empty k).write_page ⟨n, d⟩ =
      .ok ⟨writeBytes p0empty.file ((99 + n) * PAGE_SIZE) PAGE_SIZE d, k⟩ := by
    rw [Pager.write_page_ok _ ⟨n, d⟩ (show n ≠ 0 by omega) (show n ≤ _ by rw [htot]; omega)]
    rw [hofs, allocN_file, htot]
  have hFlen : 100 ≤ (writeBytes p0empty.file ((99 + n) * PAGE_SIZE) PAGE_SIZE d).len := by
    simp only [writeBytes]
    have := p0empty_file_len
    omega
  have hr : (⟨writeBytes p0empty.file ((99 + n) * PAGE_SIZE) PAGE_SIZE d, k⟩ : Pager).read_page n =
      .ok ⟨n, readBytes (writeBytes p0empty.file ((99 + n) * PAGE_SIZE) PAGE_SIZE d)
        ((99 + n) * PAGE_SIZE) PAGE_SIZE⟩ := by
    rw [Pager.read_page_ok _ n (by omega) h2, hofs]
  refine ⟨_, _, hw, hr, rfl, ?_, ?_⟩
  · intro i hi
    have hlen2 : (99 + n) * PAGE_SIZE + i <
        (writeBytes p0empty.file ((99 + n) * PAGE_SIZE) PAGE_SIZE d).len := by
      simp only [writeBytes]
      have := p0empty_file_len
      omega
    simp only [readBytes]
    rw [if_pos ⟨hi, hlen2⟩]
    simp only [writeBytes]
    rw [if_pos (by constructor <;> omega)]
    congr 1
    omega
  · show Header.deserialize _ = Header.default
    rw [Header.deserialize, Header.default]
    congr 1
    funext i
    have hi6 : i.val < 6 := i.isLt
    simp only [readBytes, HEADER_SIZE]
    rw [if_pos ⟨by omega, by omega⟩]
    simp only [writeBytes]
    rw [if_neg (by simp only [PAGE_SIZE]; omega)]
    rw [if_pos (by have := p0empty_file_len; omega)]
    simpa using p0empty_byte_lt6 i.val hi6

/-- Claim C3, witness: one allocated page, written with all-ones data. -/
theorem pager_round_trip_witness :
    Pager.openPager emptyFile = .ok p0empty ∧
    (p0empty.allocate_page).1 = 1 ∧
    (allocN p0empty 1).total_pages = 1 ∧
    ∃ p2 m, (allocN p0empty 1).write_page ⟨1, fun _ => 1⟩ = .ok p2 ∧
      p2.read_page 1 = .ok m ∧ m.number = 1 ∧
      (∀ i, i < PAGE_SIZE → m.data i = (fun _ => (1 : Nat)) i) ∧
      p2.read_header = Header.default :=
  pager_round_trip (fun _ => 1) 1 1 (by decide) (by decide) (by decide)

theorem write16_apply_of_ne (b : Nat → Nat) (o x j : Nat) (h1 : j ≠ o) (h2 : j ≠ o + 1) :
    write16 b o x j = b j := by
  simp [write16, h1, h2]

theorem le16_write16_self (b : Nat → Nat) (o x : Nat) (hx : x < 65536) :
    le16 (write16 b o x) o = x := by
  have h1 : write16 b o x o = x % 256 := by simp [write16]
  have h2 : write16 b o x (o + 1) = x / 256 % 256 := by
    show (if o + 1 = o then x % 256 else if o + 1 = o + 1 then x / 256 % 256 else b (o + 1)) =
      x / 256 % 256
    rw [if_neg (by omega), if_pos rfl]
  rw [le16, h1, h2]
  omega

theorem le16_write16_disjoint (b : Nat → Nat) (o x q : Nat) (h : q + 2 ≤ o ∨ o + 2 ≤ q) :
    le16 (write16 b o x) q = le16 b q := by
  rw [le16, le16, write16_apply_of_ne _ _ _ _ (by omega) (by omega),
    write16_apply_of_ne _ _ _ _ (by omega) (by omega)]

theorem writeRange_apply_out (b : Nat → Nat) (o : Nat) (p : List Nat) (j : Nat)
    (h : j < o ∨ o + p.length ≤ j) : writeRange b o p j = b j := by
  rw [writeRange, if_neg (by omega)]

theorem writeRange_apply_in (b : Nat → Nat) (o : Nat) (p : List Nat) (j : Nat)
    (h1 : o ≤ j) (h2 : j < o + p.length) : writeRange b o p j = p.getD (j - o) 0 := by
  rw [writeRange, if_pos ⟨h1, h2⟩]

theorem le16_writeRange_disjoint (b : Nat → Nat) (o : Nat) (p : List Nat) (q : Nat)
    (h : q + 2 ≤ o ∨ o + p.length ≤ q) : le16 (writeRange b o p) q = le16 b q := by
  rw [le16, le16, writeRange_apply_out _ _ _ _ (by omega), writeRange_apply_out _ _ _ _ (by omega)]

theorem sliceBytes_congr (b b' : Nat → Nat) (o l : Nat)
    (h : ∀ j, o ≤ j → j < o + l → b' j = b j) : sliceBytes b' o l = sliceBytes b o l := by
  rw [sliceBytes, sliceBytes]
  apply List.map_congr_left
  intro i hi
  rw [List.mem_range] at hi
  exact h (o + i) (by omega) (by omega)

theorem getD_range_map (p : List Nat) : (List.range p.length).map (fun i => p.getD i 0) = p := by
  apply List.ext_getElem
  · simp
  · intro i h1 h2
    simp [List.getElem?_eq_getElem h2]

/-- The central slotted-page fact: a successful `page_add_item` preserves the
page invariants and appends exactly the inserted payload to the decoded
tuple sequence. -/
theorem page_add_item_spec (b b' : Nat → Nat) (p : List Nat) (hInv : PageInv b)
    (hok : page_add_item b p = .ok b') :
    PageInv b' ∧ pageItems b' = pageItems b ++ [p] := by
  obtain ⟨hs6, hse, he16, hal, hitems⟩ := hInv
  have hne : p.length ≠ 0 := by
    intro h
    rw [page_add_item, if_pos h] at hok
    exact absurd hok (by simp)
  have hL1 : 1 ≤ p.length := by omega
  have hfit : ¬ (endFree b - startFree b < ITEM_ID_SIZE + p.length) := by
    intro h
    rw [page_add_item, if_neg hne, if_pos h] at hok
    exact absurd hok (by simp)
  have hfit4 : startFree b + 4 + p.length ≤ endFree b := by
    simp only [ITEM_ID_SIZE] at hfit
    omega
  have hb' : b' = write16 (write16
      (write16 (write16 (writeRange b (endFree b - p.length) p)
        (startFree b) (endFree b - p.length))
        (startFree b + 2) p.length)
      0 (startFree b + 4)) 2 (endFree b - p.length) := by
    rw [page_add_item, if_neg hne, if_neg hfit] at hok
    exact (Except.ok.inj hok).symm
  have h4cnt : 4 * itemCount b = startFree b - 6 := by
    simp only [itemCount, PAGE_HEADER_SIZE, ITEM_ID_SIZE]
    omega
  have hS' : startFree b' = startFree b + 4 := by
    rw [startFree, hb', le16_write16_disjoint _ _ _ _ (Or.inl (by omega)),
      le16_write16_self _ _ _ (by omega)]
  have hE' : endFree b' = endFree b - p.length := by
    rw [endFree, hb', le16_write16_self _ _ _ (by omega)]
  have hCnt : itemCount b' = itemCount b + 1 := by
    simp only [itemCount, PAGE_HEADER_SIZE, ITEM_ID_SIZE, hS']
    omega
  have hIdPres : ∀ j, j < itemCount b → itemId b' j = itemId b j := by
    intro j hj
    have hj4 : 6 + 4 * j + 4 ≤ startFree b := by omega
    have c1 : le16 b' (6 + 4 * j) = le16 b (6 + 4 * j) := by
      rw [hb', le16_write16_disjoint _ _ _ _ (Or.inr (by omega)),
        le16_write16_disjoint _ _ _ _ (Or.inr (by omega)),
        le16_write16_disjoint _ _ _ _ (Or.inl (by omega)),
        le16_write16_disjoint _ _ _ _ (Or.inl (by omega)),
        le16_writeRange_disjoint _ _ _ _ (Or.inl (by omega))]
    have c2 : le16 b' (6 + 4 * j + 2) = le16 b (6 + 4 * j + 2) := by
      rw [hb', le16_write16_disjoint _ _ _ _ (Or.inr (by omega)),
        le16_write16_disjoint _ _ _ _ (Or.inr (by omega)),
        le16_write16_disjoint _ _ _ _ (Or.inl (by omega)),
        le16_write16_disjoint _ _ _ _ (Or.inl (by omega)),
        le16_writeRange_disjoint _ _ _ _ (Or.inl (by omega))]
    simp only [itemId, PAGE_HEADER_SIZE, ITEM_ID_SIZE]
    rw [c1, c2]
  have hIdNew : itemId b' (itemCount b) = (endFree b - p.length, p.length) := by
    have ha : 6 + 4 * itemCount b = startFree b := by omega
    have c1 : le16 b' (startFree b) = endFree b - p.length := by
      rw [hb', le16_write16_disjoint _ _ _ _ (Or.inr (by omega)),
        le16_write16_disjoint _ _ _ _ (Or.inr (by omega)),
        le16_write16_disjoint _ _ _ _ (Or.inl (by omega)),
        le16_write16_self _ _ _ (by omega)]
    have c2 : le16 b' (startFree b + 2) = p.length := by
      rw [hb', le16_write16_disjoint _ _ _ _ (Or.inr (by omega)),
        le16_write16_disjoint _ _ _ _ (Or.inr (by omega)),
        le16_write16_self _ _ _ (by omega)]
    simp only [itemId, PAGE_HEADER_SIZE, ITEM_ID_SIZE, ha]
    rw [c1, c2]
  have hHigh : ∀ q, endFree b ≤ q → b' q = b q := by
    intro q hq
    rw [hb', write16_apply_of_ne _ _ _ _ (by omega) (by omega),
      write16_apply_of_ne _ _ _ _ (by omega) (by omega),
      write16_apply_of_ne _ _ _ _ (by omega) (by omega),
      write16_apply_of_ne _ _ _ _ (by omega) (by omega),
      writeRange_apply_out _ _ _ _ (Or.inr (by omega))]
  have hSlicePres : ∀ j, j < itemCount b →
      sliceBytes b' (itemId b j).1 (itemId b j).2 = sliceBytes b (itemId b j).1 (itemId b j).2 := by
    intro j hj
    apply sliceBytes_congr
    intro q hq1 hq2
    exact hHigh q (by have := (hitems j hj).1; omega)
  have hNewSlice : sliceBytes b' (endFree b - p.length) p.length = p := by
    have hpt : ∀ q, endFree b - p.length ≤ q → q < (endFree b - p.length) + p.length →
        b' q = p.getD (q - (endFree b - p.length)) 0 := by
      intro q h1 h2
      rw [hb', write16_apply_of_ne _ _ _ _ (by omega) (by omega),
        write16_apply_of_ne _ _ _ _ (by omega) (by omega),
        write16_apply_of_ne _ _ _ _ (by omega) (by omega),
        write16_apply_of_ne _ _ _ _ (by omega) (by omega),
        writeRange_apply_in _ _ _ _ h1 h2]
    rw [sliceBytes]
    calc (List.range p.length).map (fun i => b' ((endFree b - p.length) + i))
        = (List.range p.length).map (fun i => p.getD i 0) := by
          apply List.map_congr_left
          intro i hi
          rw [List.mem_range] at hi
          rw [hpt ((endFree b - p.length) + i) (by omega) (by omega)]
          congr 1
          omega
      _ = p := getD_range_map p
  constructor
  · refine ⟨by omega, by omega, by omega, by omega, ?_⟩
    intro j hj
    rw [hCnt] at hj
    rcases Nat.lt_succ_iff_lt_or_eq.mp hj with hlt | heq
    · rw [hIdPres j hlt]
      have := hitems j hlt
      omega
    · subst heq
      rw [hIdNew]
      constructor
      · omega
      · simp only
        omega
  · rw [pageItems, pageItems, hCnt, List.range_succ, List.map_append]
    congr 1
    · apply List.map_congr_left
      intro j hj
      rw [List.mem_range] at hj
      rw [hIdPres j hj, hSlicePres j hj]
    · simp only [List.map_cons, List.map_nil]
      rw [hIdNew]
      simp only
      rw [hNewSlice]

theorem pageInit_inv : PageInv pageInit := by
  refine ⟨by decide, by decide, by decide, by decide, ?_⟩
  intro j hj
  have h0 : itemCount pageInit = 0 := by decide
  rw [h0] at hj
  omega

theorem pageInit_items : pageItems pageInit = [] := by decide

theorem heap_insert_poolD_ok (b b2 : Nat → Nat) (t : List Nat)
    (h : page_add_item b t = .ok b2) :
    heap_insert (poolD b true) 1 t = (poolD b2 true, .ok ()) := by
  have h1 : get_page_with_free_space (poolD b true) 1 =
      (⟨[⟨1, 1, b, 1, true⟩], fun _ _ _ => 0⟩, (1, 1)) := rfl
  have h2 : get_page (⟨[⟨1, 1, b, 1, true⟩], fun _ _ _ => 0⟩ : BufferPool) (1, 1) = b := rfl
  simp only [heap_insert, h1, h2, h]
  rfl

theorem heap_insert_poolD_err (b : Nat → Nat) (t : List Nat) (e : DbError)
    (h : page_add_item b t = .error e) :
    heap_insert (poolD b true) 1 t =
      (⟨[⟨1, 1, b, 1, true⟩], fun _ _ _ => 0⟩, .error e) := by
  have h1 : get_page_with_free_space (poolD b true) 1 =
      (⟨[⟨1, 1, b, 1, true⟩], fun _ _ _ => 0⟩, (1, 1)) := rfl
  have h2 : get_page (⟨[⟨1, 1, b, 1, true⟩], fun _ _ _ => 0⟩ : BufferPool) (1, 1) = b := rfl
  simp only [heap_insert, h1, h2, h]

theorem heap_scan_poolD (b : Nat → Nat) (dr : Bool) :
    heap_scan (poolD b dr) 1 = (poolD b dr, .ok (pageItems b)) := by
  have h1 : fetch_buffer (poolD b dr) 1 1 =
      (⟨[⟨1, 1, b, 1, dr⟩], fun _ _ _ => 0⟩, (1, 1)) := rfl
  have h2 : get_page (⟨[⟨1, 1, b, 1, dr⟩], fun _ _ _ => 0⟩ : BufferPool) (1, 1) = b := rfl
  have h3 : unpin_buffer (⟨[⟨1, 1, b, 1, dr⟩], fun _ _ _ => 0⟩ : BufferPool) (1, 1) false =
      poolD b dr := by
    simp [unpin_buffer, mapFrame, poolD]
  simp only [heap_scan, heap_iter_visits, h1, h2, h3]

theorem insertAll_poolD (ps : List (List Nat)) : ∀ (b : Nat → Nat), PageInv b →
    (insertAll (poolD b true) 1 ps).2 = .ok () →
    ∃ b', (insertAll (poolD b true) 1 ps).1 = poolD b' true ∧ PageInv b' ∧
      pageItems b' = pageItems b ++ ps := by
  induction ps with
  | nil =>
    intro b hInv _
    exact ⟨b, rfl, hInv, by simp [insertAll]⟩
  | cons p ps ih =>
    intro b hInv hok
    cases hadd : page_add_item b p with
    | error e =>
      have hbad : insertAll (poolD b true) 1 (p :: ps) =
          (⟨[⟨1, 1, b, 1, true⟩], fun _ _ _ => 0⟩, .error e) := by
        simp only [insertAll, heap_insert_poolD_err b p e hadd]
      rw [hbad] at hok
      simp at hok
    | ok b2 =>
      have hstep : insertAll (poolD b true) 1 (p :: ps) = insertAll (poolD b2 true) 1 ps := by
        simp only [insertAll, heap_insert_poolD_ok b b2 p hadd]
      obtain ⟨hInv2, hitems2⟩ := page_add_item_spec b b2 p hInv hadd
      rw [hstep] at hok ⊢
      obtain ⟨b', h1, h2, h3⟩ := ih b2 hInv2 hok
      refine ⟨b', h1, h2, ?_⟩
      rw [h3, hitems2]
      simp

/-- Claim C6: if every `heap_insert` of the payload sequence `ps` into a
freshly created relation succeeds, then `heap_scan` on that relation returns
exactly `ps`, in insertion order.  (The buffer pool, slotted page and
free-space policy are modelled from the specification; under the source's
page-1-only free-space policy every successful insert lands on page 1 in
slot order, which is what the scan decodes.) -/
theorem heap_scan_insertion_order (ps : List (List Nat))
    (h : (insertAll initPool 1 ps).2 = .ok ()) :
    (heap_scan (insertAll initPool 1 ps).1 1).2 = .ok ps := by
  obtain ⟨b', h1, _h2, h3⟩ := insertAll_poolD ps pageInit pageInit_inv h
  show (heap_scan (insertAll (poolD pageInit true) 1 ps).1 1).2 = .ok ps
  rw [h1, heap_scan_poolD b' true]
  rw [h3, pageInit_items]
  simp

/-- Claim C6, witness: insert one tuple `[7]` and scan it back. -/
theorem heap_scan_insertion_order_witness :
    (insertAll initPool 1 [[7]]).2 = .ok () ∧
    (heap_scan (insertAll initPool 1 [[7]]).1 1).2 = .ok [[7]] :=
  ⟨by decide, heap_scan_insertion_order [[7]] (by decide)⟩

/-- Claim C7, failing input: a relation whose pages 1 and 2 hold the tuples
`[7]` and `[9]` respectively.  `heap_scan` (via `heap_iter`) returns only
page 1's tuple `[7]` — the source fetches only page 1, contradicting both
the claim and `heap_iter`'s own doc comment, as its `TODO: Iterate over all
pages on relation` admits — even though page 2 decodes to `[9]`. -/
theorem heap_scan_misses_second_page :
    (heap_scan twoPagePool 1).2 = .ok [[7]] ∧ pageItems (pageWith [9]) = [[9]] := by
  constructor <;> decide

/-- Claim C8, counterexample: `heap_insert` of an oversized payload fails in
`page_add_item` and returns early without unpinning: the fetched buffer's
pin count stays 1, so heap_insert does not always unpin the buffer it
acquired. -/
theorem heap_insert_error_leaves_pin :
    (heap_insert (poolD pageInit true) 1 bigTuple).2 = .error .PageFull ∧
    ((heap_insert (poolD pageInit true) 1 bigTuple).1.frames.map Frame.pinCount) = [1] := by
  have hlen : bigTuple.length = 16380 := by
    rw [bigTuple]
    exact List.length_replicate _ _
  have hs : startFree pageInit = 6 := by decide
  have he : endFree pageInit = 16384 := by decide
  have hfull : page_add_item pageInit bigTuple = .error .PageFull := by
    rw [page_add_item, if_neg (by omega), if_pos (by rw [hlen, hs, he, ITEM_ID_SIZE]; omega)]
  rw [heap_insert_poolD_err pageInit bigTuple .PageFull hfull]
  exact ⟨rfl, rfl⟩

/-- Claim C8 (amended): on success `heap_insert` unpins the buffer it
acquired with `made_dirty = true` (pin count back to 0, frame dirty, page
updated), and `heap_scan` always unpins with `made_dirty = false` and never
modifies page contents — it returns the pool exactly as it found it; but on
a `page_add_item` failure `heap_insert` returns early without unpinning. -/
theorem heap_unpin_discipline :
    (∀ (b b2 : Nat → Nat) (t : List Nat), page_add_item b t = .ok b2 →
      heap_insert (poolD b true) 1 t = (poolD b2 true, .ok ())) ∧
    (∀ (b : Nat → Nat) (dr : Bool),
      heap_scan (poolD b dr) 1 = (poolD b dr, .ok (pageItems b))) :=
  ⟨heap_insert_poolD_ok, heap_scan_poolD⟩

/-- Claim C8, witness: the success cases at concrete inputs, including a
clean (`dirty = false`) pool that the scan leaves clean. -/
theorem heap_unpin_discipline_witness :
    heap_insert (poolD pageInit true) 1 [7] = (poolD (pageWith [7]) true, .ok ()) ∧
    heap_scan (poolD pageInit false) 1 = (poolD pageInit false, .ok (pageItems pageInit)) :=
  ⟨heap_unpin_discipline.1 pageInit (pageWith [7]) [7] rfl,
   heap_unpin_discipline.2 pageInit false⟩

theorem foldl_flush_preserve (frs : List Frame) : ∀ (d : Nat → Nat → Nat → Nat) (ro pn : Nat),
    (∀ x ∈ frs, ¬ (x.relOid = ro ∧ x.pageNum = pn)) →
    (frs.foldl flushFrame d) ro pn = d ro pn := by
  induction frs with
  | nil => intro d ro pn _; rfl
  | cons g rest ih =>
    intro d ro pn h
    rw [List.foldl_cons, ih _ ro pn (fun x hx => h x (List.mem_cons_of_mem g hx))]
    by_cases hd : g.dirty = true
    · rw [flushFrame, if_pos hd]
      rw [if_neg]
      rintro ⟨e1, e2⟩
      exact h g (List.mem_cons_self g rest) ⟨e1.symm, e2.symm⟩
    · rw [flushFrame, if_neg hd]

theorem foldl_flush_at (frs : List Frame) : ∀ (d : Nat → Nat → Nat → Nat) (fr : Frame),
    fr ∈ frs → fr.dirty = true →
    List.Pairwise (fun a c => ¬ (a.relOid = c.relOid ∧ a.pageNum = c.pageNum)) frs →
    (frs.foldl flushFrame d) fr.relOid fr.pageNum = fr.data := by
  induction frs with
  | nil => intro d fr h _ _; cases h
  | cons g rest ih =>
    intro d fr h hd hpw
    rw [List.foldl_cons]
    rcases List.mem_cons.mp h with heq | hmem
    · subst heq
      have hside : ∀ x ∈ rest, ¬ (x.relOid = fr.relOid ∧ x.pageNum = fr.pageNum) := by
        intro x hx hxx
        exact (List.pairwise_cons.mp hpw).1 x hx ⟨hxx.1.symm, hxx.2.symm⟩
      rw [foldl_flush_preserve rest (flushFrame d fr) fr.relOid fr.pageNum hside]
      rw [flushFrame, if_pos hd]
      simp
    · exact ih (flushFrame d g) fr hmem hd (List.pairwise_cons.mp hpw).2

/-- Claim C9: engine teardown runs `flush_all_buffers`: it succeeds with a
pool in which no frame is dirty and every previously dirty frame's bytes
have reached the backing store; and were the flush to fail, `engineDrop`
surfaces exactly that failure (the source's `.expect` panic) instead of
swallowing it.  (`flush_all_buffers` and the pool are modelled from the
specification; the `Drop` impl is from `src/engine/mod.rs`.) -/
theorem engine_teardown_flushes (pool : BufferPool)
    (hpw : List.Pairwise (fun a c => ¬ (a.relOid = c.relOid ∧ a.pageNum = c.pageNum))
      pool.frames) :
    ∃ p', engineDrop pool = .ok p' ∧
      (∀ fr, fr ∈ p'.frames → fr.dirty = false) ∧
      (∀ fr, fr ∈ pool.frames → fr.dirty = true → p'.disk fr.relOid fr.pageNum = fr.data) ∧
      (∀ e, flush_all_buffers pool = .error e → engineDrop pool = .error e) := by
  have hdref : engineDrop pool = .ok ⟨pool.frames.map
      (fun g => ⟨g.relOid, g.pageNum, g.data, g.pinCount, false⟩),
    pool.frames.foldl flushFrame pool.disk⟩ := rfl
  refine ⟨_, hdref, ?_, ?_, ?_⟩
  · intro fr hfr
    have hfr' : fr ∈ pool.frames.map
        (fun g => (⟨g.relOid, g.pageNum, g.data, g.pinCount, false⟩ : Frame)) := hfr
    rw [List.mem_map] at hfr'
    obtain ⟨g, hg, rfl⟩ := hfr'
    rfl
  · intro fr hfr hd
    exact foldl_flush_at pool.frames pool.disk fr hfr hd hpw
  · intro e he
    simp [engineDrop, he]

/-- Claim C9, witness: teardown of a pool holding one dirty page. -/
theorem engine_teardown_flushes_witness :
    ∃ p', engineDrop (poolD pageInit true) = .ok p' ∧
      (∀ fr, fr ∈ p'.frames → fr.dirty = false) ∧
      (∀ fr, fr ∈ (poolD pageInit true).frames → fr.dirty = true →
        p'.disk fr.relOid fr.pageNum = fr.data) ∧
      (∀ e, flush_all_buffers (poolD pageInit true) = .error e →
        engineDrop (poolD pageInit true) = .error e) :=
  engine_teardown_flushes (poolD pageInit true) (by simp [poolD])
